import Mathlib

/-!
Verification development for the conversational-agent repository
(`backend/langgraph_agent.py`, `backend/tools/search.py`).

The Python sources are embedded shallowly:

* strings are Lean `String`s (lists of characters), and the handful of
  Python string operations the code uses (`lower`, `strip`, `split`,
  `count`, substring containment, `re.findall(r"\w+", ...)`,
  `re.sub` for the two concrete patterns the code uses) are implemented
  as executable Lean functions with Python's semantics;
* `json.loads` is implemented as an executable recursive-descent reader
  for the JSON fragment the agent exchanges (objects, arrays, strings,
  integers, booleans, null); `json.dumps` is a printer;
* Python exceptions are modelled with `Except PyExn`;
* external collaborators (the Ollama generation backend, the langchain
  tool invocation layer, Wikipedia/Wikidata/Google endpoints, page
  fetching/extraction, `uuid4`, the current date) are parameters of the
  embedded functions: one run of the code corresponds to one choice of
  these oracle functions;
* the LangGraph wiring built in `Agent._build_graph` (entry point `llm`,
  conditional edge `llm -> tools`/`END` decided by `_should_continue`,
  unconditional edge `tools -> llm`) is embedded as a step function on a
  turn state, iterated explicitly;
* floating-point scores (`score_passage`) are modelled exactly in `ℚ`
  (the only non-integer constant involved is `0.3`).
-/

set_option maxRecDepth 200000

/-! ## Python-style string primitives (over `List Char` / `String`) -/

/-- List-prefix test, `Bool`-valued (used by the substring operations). -/
def listIsPre : List Char → List Char → Bool
  | [], _ => true
  | _ :: _, [] => false
  | p :: ps, c :: cs => p == c && listIsPre ps cs

/-- Python `pat in s` (substring containment) on character lists. -/
def containsSubL (pat : List Char) : List Char → Bool
  | [] => listIsPre pat []
  | c :: cs => listIsPre pat (c :: cs) || containsSubL pat cs

/-- Python `pat in s` (substring containment) on strings. -/
def pyContains (s pat : String) : Bool := containsSubL pat.data s.data

/-- Python `s.count(pat)` for a non-empty `pat`: number of non-overlapping
occurrences, scanning left to right.  Structural fuel (the length of the
scanned list) keeps the definition kernel-computable. -/
def countOccGo (pat : List Char) : Nat → List Char → Nat
  | 0, _ => 0
  | _ + 1, [] => 0
  | f + 1, c :: cs =>
    if !pat.isEmpty && listIsPre pat (c :: cs) then
      1 + countOccGo pat f (List.drop (pat.length - 1) cs)
    else
      countOccGo pat f cs

/-- Python `s.count(pat)` (for the non-empty patterns the code uses). -/
def pyCount (s pat : String) : Nat := countOccGo pat.data s.data.length s.data

/-- Remove every non-overlapping occurrence of `pat` (Python
`s.replace(pat, "")`), scanning left to right. -/
def removeOccGo (pat : List Char) : Nat → List Char → List Char
  | 0, s => s
  | _ + 1, [] => []
  | f + 1, c :: cs =>
    if !pat.isEmpty && listIsPre pat (c :: cs) then
      removeOccGo pat f (List.drop (pat.length - 1) cs)
    else
      c :: removeOccGo pat f cs

/-- Python `s.replace(pat, "")`. -/
def pyRemove (s pat : String) : String := ⟨removeOccGo pat.data s.data.length s.data⟩

/-- Python `s.strip()`: drop whitespace from both ends. -/
def pyStrip (s : String) : String :=
  ⟨((s.data.dropWhile Char.isWhitespace).reverse.dropWhile Char.isWhitespace).reverse⟩

/-- Python `s.lower()` (character-wise lowering). -/
def pyLower (s : String) : String := ⟨s.data.map Char.toLower⟩

/-- Maximal runs of characters satisfying `p` (accumulator-style, structural). -/
def runsGo (p : Char → Bool) (cur : List Char) : List Char → List (List Char)
  | [] => if cur.isEmpty then [] else [cur.reverse]
  | c :: cs =>
    if p c then runsGo p (c :: cur) cs
    else if cur.isEmpty then runsGo p [] cs
    else cur.reverse :: runsGo p [] cs

/-- `\w` of Python's `re` module: alphanumeric or underscore. -/
def isWordChar (c : Char) : Bool := c.isAlphanum || c == '_'

/-- Python `re.findall(r"\w+", s)`: the maximal word-character runs of `s`. -/
def reWordRuns (s : String) : List String := (runsGo isWordChar [] s.data).map String.mk

/-- Python `s.split()` (no argument): maximal non-whitespace runs. -/
def pySplitWs (s : String) : List String :=
  (runsGo (fun c => !c.isWhitespace) [] s.data).map String.mk

/-- Python `s.split(sep)` for a non-empty separator, with fuel. -/
def splitOnGo (sep : List Char) : Nat → List Char → List Char → List (List Char)
  | 0, cur, rest => [cur.reverse ++ rest]
  | _ + 1, cur, [] => [cur.reverse]
  | f + 1, cur, c :: cs =>
    if !sep.isEmpty && listIsPre sep (c :: cs) then
      cur.reverse :: splitOnGo sep f [] (List.drop (sep.length - 1) cs)
    else
      splitOnGo sep f (c :: cur) cs

/-- Python `s.split(sep)` (non-empty `sep`; empty fields are kept). -/
def pySplit (s sep : String) : List String :=
  (splitOnGo sep.data (s.data.length + 1) [] s.data).map String.mk

/-- Python `int(s)` for the decimal integer strings the code feeds it
(optional sign followed by digits); other inputs give `none`
(a Python `ValueError`). -/
def pyInt (s : String) : Option Int :=
  let digits : List Char → Option Nat := fun ds =>
    if ds.isEmpty then none
    else ds.foldlM (fun acc c => if c.isDigit then some (acc * 10 + (c.toNat - 48)) else none) 0
  match s.data with
  | '-' :: ds => (digits ds).map (fun n => -(n : Int))
  | '+' :: ds => (digits ds).map (fun n => (n : Int))
  | ds => (digits ds).map (fun n => (n : Int))

/-! ## JSON (`json.loads` / `json.dumps`)

The agent parses generation-backend output with `json.loads` and prints
tool arguments with `json.dumps`.  `JsonVal` covers the JSON fragment
exchanged by the agent (numbers are integers; the backend contract in the
system prompt only ever asks for strings and objects). -/

inductive JsonVal where
  | null : JsonVal
  | bool (b : Bool) : JsonVal
  | num (n : Int) : JsonVal
  | str (s : String) : JsonVal
  | arr (xs : List JsonVal) : JsonVal
  | obj (kvs : List (String × JsonVal)) : JsonVal

/-- First binding of a key in a parsed JSON object (Python `d[k]` / `k in d`). -/
def jsonLookup (kvs : List (String × JsonVal)) (k : String) : Option JsonVal :=
  match kvs with
  | [] => none
  | (k', v) :: rest => if k' == k then some v else jsonLookup rest k

/-- Python `k in d` for a parsed JSON object. -/
def jsonHasKey (kvs : List (String × JsonVal)) (k : String) : Bool :=
  (jsonLookup kvs k).isSome

/-- JSON whitespace. -/
def isJsonWs (c : Char) : Bool := c == ' ' || c == '\t' || c == '\n' || c == '\r'

/-- Skip JSON whitespace. -/
def skipWs (cs : List Char) : List Char := cs.dropWhile isJsonWs

/-- Read the body of a JSON string literal (after the opening quote),
returning the decoded characters and the rest of the input. -/
def readStrGo : Nat → List Char → Option (List Char × List Char)
  | 0, _ => none
  | _ + 1, [] => none
  | f + 1, c :: cs =>
    if c == '"' then some ([], cs)
    else if c == '\\' then
      match cs with
      | [] => none
      | e :: cs' =>
        let dec : Option (Char × List Char) :=
          if e == '"' then some ('"', cs')
          else if e == '\\' then some ('\\', cs')
          else if e == '/' then some ('/', cs')
          else if e == 'n' then some ('\n', cs')
          else if e == 't' then some ('\t', cs')
          else if e == 'r' then some ('\r', cs')
          else if e == 'b' then some (Char.ofNat 8, cs')
          else if e == 'f' then some (Char.ofNat 12, cs')
          else none
        match dec with
        | none => none
        | some (d, rest) =>
          match readStrGo f rest with
          | none => none
          | some (tail, rest') => some (d :: tail, rest')
    else
      match readStrGo f cs with
      | none => none
      | some (tail, rest) => some (c :: tail, rest)

/-- Read a JSON integer (optional minus, digit run); fails on the float
forms the agent never emits. -/
def readIntGo (cs : List Char) : Option (Int × List Char) :=
  let core : List Char → Option (Nat × List Char) := fun l =>
    let ds := l.takeWhile Char.isDigit
    let rest := l.dropWhile Char.isDigit
    if ds.isEmpty then none
    else
      match rest with
      | '.' :: _ => none
      | 'e' :: _ => none
      | 'E' :: _ => none
      | _ => some (ds.foldl (fun acc c => acc * 10 + (c.toNat - 48)) 0, rest)
  match cs with
  | '-' :: l => (core l).map (fun (n, rest) => (-(n : Int), rest))
  | l => (core l).map (fun (n, rest) => ((n : Int), rest))

/-- What the JSON reader is currently reading. -/
inductive JsonKind where
  | val : JsonKind
  | members : JsonKind
  | elements : JsonKind

/-- Recursive-descent JSON reader, structural in its fuel.
`members` reads the remainder of an object body (returned as `.obj`),
`elements` the remainder of an array body (returned as `.arr`). -/
def jsonGo : Nat → JsonKind → List Char → Option (JsonVal × List Char)
  | 0, _, _ => none
  | f + 1, .val, cs =>
    match skipWs cs with
    | [] => none
    | c :: cs' =>
      if c == '{' then
        match skipWs cs' with
        | '}' :: rest => some (.obj [], rest)
        | rest => jsonGo f .members rest
      else if c == '[' then
        match skipWs cs' with
        | ']' :: rest => some (.arr [], rest)
        | rest => jsonGo f .elements rest
      else if c == '"' then
        (readStrGo (cs'.length + 1) cs').map (fun (body, rest) => (.str ⟨body⟩, rest))
      else if listIsPre "true".data (c :: cs') then some (.bool true, List.drop 3 cs')
      else if listIsPre "false".data (c :: cs') then some (.bool false, List.drop 4 cs')
      else if listIsPre "null".data (c :: cs') then some (.null, List.drop 3 cs')
      else
        (readIntGo (c :: cs')).map (fun (n, rest) => (.num n, rest))
  | f + 1, .members, cs =>
    match skipWs cs with
    | '"' :: cs' =>
      match readStrGo (cs'.length + 1) cs' with
      | none => none
      | some (key, rest) =>
        match skipWs rest with
        | ':' :: rest' =>
          match jsonGo f .val rest' with
          | none => none
          | some (v, rest'') =>
            match skipWs rest'' with
            | ',' :: rest''' =>
              match jsonGo f .members rest''' with
              | some (.obj kvs, rest4) => some (.obj ((⟨key⟩, v) :: kvs), rest4)
              | _ => none
            | '}' :: rest''' => some (.obj [(⟨key⟩, v)], rest''')
            | _ => none
        | _ => none
    | _ => none
  | f + 1, .elements, cs =>
    match jsonGo f .val cs with
    | none => none
    | some (v, rest) =>
      match skipWs rest with
      | ',' :: rest' =>
        match jsonGo f .elements rest' with
        | some (.arr xs, rest'') => some (.arr (v :: xs), rest'')
        | _ => none
      | ']' :: rest' => some (.arr [v], rest')
      | _ => none

/-- Python `json.loads`: parse the whole string (only trailing whitespace
may remain); `none` models `json.JSONDecodeError`. -/
def jsonLoads (s : String) : Option JsonVal :=
  match jsonGo (3 * s.data.length + 16) .val s.data with
  | none => none
  | some (v, rest) => if (skipWs rest).isEmpty then some v else none

/-- Escape a character for `json.dumps` output. -/
def jsonEscChar (c : Char) : List Char :=
  if c == '"' then ['\\', '"']
  else if c == '\\' then ['\\', '\\']
  else if c == '\n' then ['\\', 'n']
  else if c == '\t' then ['\\', 't']
  else if c == '\r' then ['\\', 'r']
  else [c]

mutual

/-- Python `json.dumps` (with its default separators) for `JsonVal`. -/
def jsonDumps : JsonVal → String
  | .null => "null"
  | .bool true => "true"
  | .bool false => "false"
  | .num n => toString n
  | .str s => "\"" ++ ⟨(s.data.map jsonEscChar).flatten⟩ ++ "\""
  | .arr xs => "[" ++ String.intercalate ", " (jsonDumpsList xs) ++ "]"
  | .obj kvs => "\x7b" ++ String.intercalate ", " (jsonDumpsMembers kvs) ++ "\x7d"

/-- Dumped forms of the elements of a JSON array. -/
def jsonDumpsList : List JsonVal → List String
  | [] => []
  | v :: vs => jsonDumps v :: jsonDumpsList vs

/-- Dumped forms of the members of a JSON object. -/
def jsonDumpsMembers : List (String × JsonVal) → List String
  | [] => []
  | (k, v) :: kvs => (jsonDumps (.str k) ++ ": " ++ jsonDumps v) :: jsonDumpsMembers kvs

end

/-! ## `langgraph_agent.py`: system prompt construction -/

/-- Python truthiness of a string (`if self.search_global:`). -/
def pyTruthy (s : String) : Bool := !s.isEmpty

/-- `construct_sys_prompt` from `langgraph_agent.py`: builds the system
instruction, conditionally including the `search_web` tool in the
enumerated tool list. -/
def construct_sys_prompt (enable_web_search : Bool) : String :=
  let tool_access_description :=
    if enable_web_search then "access to two external tools:" else "access to an external tool:"
  let tool_list :=
    if enable_web_search then
      "            • get_current_weather(location: str) - allows you to get the current weather of a given location\n            • search_web(query: str) - use this tool whenever you need current information, recent events, real-time data, or when your knowledge might be outdated. This includes questions about people\x27s current status, recent news, current events, or any information that changes frequently."
    else
      "            • get_current_weather(location: str)"
  let tool_usage_guidance :=
    if enable_web_search then
      "\n        **When to use search_web:**\n        - Questions about current events, news, or recent happenings\n        - Information about people\x27s current status, recent activities, or biographical details that may have changed\n        - Any query where your training data might be outdated\n        - Real-time information requests\n        - If you\x27re unsure whether your information is current, use the search tool\n        \n        **Important:** Even for seemingly basic questions like \"What is [person]\x27s birthday\" or biographical information, if there\x27s any chance the information has changed or if you want to provide the most accurate, up-to-date response, use the search_web tool."
    else ""
  let tool_example :=
    if enable_web_search then
      "(e.g. current weather, recent news, biographical information, current events)"
    else "(e.g. current weather)"
  "You are a helpful AI assistant with " ++ tool_access_description ++ "\n" ++
  tool_list ++ "\n" ++
  tool_usage_guidance ++ "\n\nYou **MUST** call the appropriate tool whenever you identify that you need information that could be:\n- Current or real-time data " ++
  tool_example ++ "\n- Information that changes frequently or might be outdated in your training data\n- Any query where using a tool would provide more accurate or up-to-date information\n\n**CRITICAL:** Before answering ANY question, ask yourself: \"Could this information have changed since my training? Would a search provide more current/accurate information?\" If yes, use the search_web tool.\n\nTo call a tool, reply with **only** a JSON object of this exact form:\n\n\x7b\"tool_call\": \x7b\"name\": \"<tool_name>\", \"arguments\": \x7b\"query\": \"your search query\"\x7d \x7d \x7d\n\n- No additional text or explanation should surround that JSON.  \n- After the tool runs and returns its result, continue the conversation by providing your answer in natural language.\n- For search_web, make your query specific and focused on what the user is asking.\n\nIf you are absolutely certain you do **not** need a tool (for basic math, general knowledge that doesn\x27t change, etc.), you may answer directly in natural language.\n\nRemember: When in doubt, use the tool. It\x27s better to search and get current information than to provide potentially outdated data."

/-! ## `langgraph_agent.py`: messages and LLM-output post-processing -/

/-- The langchain message variants the agent constructs
(`HumanMessage`, `AIMessage`, `ToolMessage`). -/
inductive BMsg where
  | human (content : String)
  | ai (content : String)
  | tool (content : String) (name : String) (toolCallId : String) (toolInput : String)

/-- `msg.content`. -/
def BMsg.content : BMsg → String
  | .human c => c
  | .ai c => c
  | .tool c _ _ _ => c

/-- Recognizer for `isinstance(msg, AIMessage)`. -/
def BMsg.isAi : BMsg → Bool
  | .ai _ => true
  | _ => false

/-- Recognizer for `isinstance(msg, ToolMessage)`. -/
def BMsg.isToolMsg : BMsg → Bool
  | .tool _ _ _ _ => true
  | _ => false

/-- `Agent._format_messages_for_ollama`.  The `AIMessage` branch that
serializes `msg.tool_calls` is vacuous for this agent: every `AIMessage`
it constructs carries only `content` (empty `tool_calls`). -/
def format_messages_for_ollama : List BMsg → List (String × String)
  | [] => []
  | .human c :: rest => ("user", c) :: format_messages_for_ollama rest
  | .ai c :: rest => ("assistant", c) :: format_messages_for_ollama rest
  | .tool c n _ _ :: rest =>
    ("user", "Tool result for " ++ n ++ ": " ++ c) :: format_messages_for_ollama rest

/-- Drop everything from the first occurrence of `pat` through its end;
`none` when `pat` does not occur (`pat` is non-empty at every use). -/
def dropThroughFirst (pat : List Char) : List Char → Option (List Char)
  | [] => none
  | c :: cs =>
    if listIsPre pat (c :: cs) then some (List.drop (pat.length - 1) cs)
    else dropThroughFirst pat cs

/-- `re.sub(r"<think>.*?</think>\s*", "", raw, flags=re.DOTALL)`:
each `<think>` block up to the nearest `</think>` plus trailing
whitespace is removed; an unmatched `<think>` is kept verbatim. -/
def stripThinkGo : Nat → List Char → List Char
  | 0, s => s
  | _ + 1, [] => []
  | f + 1, c :: cs =>
    if listIsPre "<think>".data (c :: cs) then
      match dropThroughFirst "</think>".data (List.drop 6 cs) with
      | some rest => stripThinkGo f (rest.dropWhile Char.isWhitespace)
      | none => c :: stripThinkGo f cs
    else c :: stripThinkGo f cs

/-- The LLM-output post-processing of `Agent._call_llm_node`: the
`re.sub`-based `<think>` stripping followed by `.strip()`, then the
(practically inert) literal `str.replace` of the pattern text itself. -/
def clean_llm_output (raw : String) : String :=
  let s1 := pyStrip ⟨stripThinkGo raw.data.length raw.data⟩
  pyRemove s1 "<think>.*?</think>\\s*"

/-! ## `langgraph_agent.py`: tool-call parsing and routing -/

/-- `Agent._parse_tool_call`: strict JSON parse requiring the exact shape
`{"tool_call": {"name": ..., "arguments": ...}}`. -/
def parse_tool_call (llm_output : String) : Option (JsonVal × JsonVal) :=
  match jsonLoads llm_output with
  | some (.obj kvs) =>
    match jsonLookup kvs "tool_call" with
    | some (.obj tc) =>
      match jsonLookup tc "name", jsonLookup tc "arguments" with
      | some n, some a => some (n, a)
      | _, _ => none
    | _ => none
  | _ => none

/-- `Agent._should_continue` (`true` = route `"tools"`, `false` = `END`):
strict JSON parse looking only for a `tool_call` key, with a raw
substring check as fallback when the text is not valid JSON. -/
def should_continue (msgs : List BMsg) : Bool :=
  match msgs.getLast? with
  | some (.ai c) =>
    match jsonLoads c with
    | some (.obj kvs) => jsonHasKey kvs "tool_call"
    | some _ => false
    | none => pyContains c "tool_call"
  | _ => false

/-! ## `langgraph_agent.py`: tool dispatch and the turn state machine -/

/-- Modelled Python exceptions: `TypeError` (the one exception class the
tool dispatch catches), `RuntimeError`, and everything else. -/
inductive PyExn where
  | typeError
  | runtimeError (msg : String)
  | exn (msg : String)
  deriving DecidableEq

/-- A registered tool as the dispatch site sees it: the behaviours of
`fn.invoke(**args)` (keyword style) and `fn.invoke(args)` (positional
retry).  The bodies of the registered capabilities perform external I/O
(langchain invocation layer, Wikipedia, Google CSE, HTTP fetches), so
they are oracle parameters; either invocation may raise. -/
structure ToolImpl where
  invokeKwargs : JsonVal → Except PyExn String
  invokePositional : JsonVal → Except PyExn String

/-- A tool registry (the `TOOLS` dict: name-keyed callables). -/
abbrev ToolRegistry := List (String × ToolImpl)

/-- Association-list lookup with string keys (Python `dict.get`). -/
def assocLookup {α : Type} : List (String × α) → String → Option α
  | [], _ => none
  | (k', v) :: rest, k => if k' == k then some v else assocLookup rest k

/-- `TOOLS.get(name)`: a non-string `name` matches no registered key. -/
def toolsGet (tools : ToolRegistry) (name : JsonVal) : Option ToolImpl :=
  match name with
  | .str s => assocLookup tools s
  | _ => none

/-- Python `str(v)` as used in the f-strings and message fields: the bare
content for strings (the only case the agent's contract produces). -/
def pyStrOfJson : JsonVal → String
  | .str s => s
  | v => jsonDumps v

/-- The `try/except TypeError` around the capability invocation in
`Agent._call_tool_node`: keyword-style invocation first; on `TypeError`
(and only on `TypeError`) retry positionally. -/
def invoke_with_retry (fn : ToolImpl) (args : JsonVal) : Except PyExn String :=
  match fn.invokeKwargs args with
  | .error .typeError => fn.invokePositional args
  | r => r

/-- The dispatch step of `Agent._call_tool_node`: registry lookup, the
invocation with its `TypeError` retry, and the not-found message. -/
def execute_directive (tools : ToolRegistry) (name args : JsonVal) : Except PyExn String :=
  match toolsGet tools name with
  | some fn => invoke_with_retry fn args
  | none => .ok ("Tool " ++ pyStrOfJson name ++ " not found")

/-- The LangGraph node currently executing (the graph of
`Agent._build_graph` has nodes `llm` and `tools`; `done` is `END`). -/
inductive GraphPhase where
  | llm
  | tools
  | done
  deriving DecidableEq

/-- State threaded through one turn: the working message list, the
`Agent.search_global` instance field, the number of generation calls so
far (index into the backend-output sequence), and the graph phase. -/
structure TurnState where
  msgs : List BMsg
  searchGlobal : String
  calls : Nat
  phase : GraphPhase

/-- The generation backend (`OllamaClient.generate`) as an oracle: the
index of the call and the chat payload determine the returned text.
`generate` catches its own request errors and returns error text, so it
is total. -/
abbrev Backend := Nat → List (String × String) → String

/-- The `uuid4()` oracle for tool-call correlation ids, indexed by the
length of the message list at dispatch time. -/
abbrev UuidGen := Nat → String

/-- `Agent._call_llm_node`: read the `search_global` flag with Python
truthiness, build the system prompt, reset the flag to the *string*
`'false'`, call the backend on the formatted payload, post-process, and
append exactly one `AIMessage`. -/
def call_llm_node (backend : Backend) (st : TurnState) : TurnState :=
  let temp := pyTruthy st.searchGlobal
  let sysPrompt := construct_sys_prompt temp
  let payload := ("system", sysPrompt) :: format_messages_for_ollama st.msgs
  let llm_out_raw := backend st.calls payload
  let llm_out := clean_llm_output llm_out_raw
  { st with msgs := st.msgs ++ [.ai llm_out], searchGlobal := "false", calls := st.calls + 1 }

/-- `Agent._call_tool_node`: parse the last message as a directive; when
the last message is an `AIMessage` and strict parsing succeeds, dispatch
and append exactly one `ToolMessage`; otherwise skip the invocation and
append nothing.  A raising capability propagates out of the node. -/
def call_tool_node (tools : ToolRegistry) (uuids : UuidGen) (st : TurnState) :
    Except PyExn TurnState :=
  match st.msgs.getLast? with
  | none => .error (.exn "IndexError: list index out of range")
  | some last =>
    match last.isAi, parse_tool_call last.content with
    | true, some (name, args) =>
      match execute_directive tools name args with
      | .error e => .error e
      | .ok res =>
        let tool_msg := BMsg.tool res (pyStrOfJson name) (uuids st.msgs.length) (jsonDumps args)
        .ok { st with msgs := st.msgs ++ [tool_msg] }
    | _, _ => .ok st

/-- One step of the compiled graph of `Agent._build_graph`: entry point
`llm`; after `llm` the conditional edge `_should_continue` routes to
`tools` or `END`; after `tools` the unconditional edge returns to `llm`. -/
def stepTurn (tools : ToolRegistry) (backend : Backend) (uuids : UuidGen)
    (st : TurnState) : Except PyExn TurnState :=
  match st.phase with
  | .done => .ok st
  | .llm =>
    let st' := call_llm_node backend st
    .ok { st' with phase := if should_continue st'.msgs then .tools else .done }
  | .tools =>
    match call_tool_node tools uuids st with
    | .error e => .error e
    | .ok st' => .ok { st' with phase := .llm }

/-- `n` steps of the graph (`done` is absorbing). -/
def runTurnSteps (tools : ToolRegistry) (backend : Backend) (uuids : UuidGen) :
    Nat → TurnState → Except PyExn TurnState
  | 0, st => .ok st
  | n + 1, st =>
    match stepTurn tools backend uuids st with
    | .error e => .error e
    | .ok st' => runTurnSteps tools backend uuids n st'

/-- Run the graph until `END`.  The fuel models the framework's
recursion limit: `.ok none` is the framework aborting a run that has not
reached `END` within the limit. -/
def runToDone (tools : ToolRegistry) (backend : Backend) (uuids : UuidGen) :
    Nat → TurnState → Except PyExn (Option TurnState)
  | 0, st => if st.phase = .done then .ok (some st) else .ok none
  | n + 1, st =>
    if st.phase = .done then .ok (some st)
    else
      match stepTurn tools backend uuids st with
      | .error e => .error e
      | .ok st' => runToDone tools backend uuids n st'

/-! ## `langgraph_agent.py`: `MemoryStore` (in-process fallback branch)

The Redis branch is an external collaborator; the claims about session
history concern the in-process `self._memory` dict, embedded here as an
insertion-ordered association list. -/

/-- One stored history entry (`{"role": role, "text": text}`). -/
structure MemEntry where
  role : String
  text : String
  deriving DecidableEq

/-- The `self._memory` dict: user id → ordered message log. -/
abbrev MemStore := List (String × List MemEntry)

/-- `MemoryStore.add_message` (fallback branch): create the user's list
if absent, then append. -/
def add_message (m : MemStore) (uid role text : String) : MemStore :=
  match m with
  | [] => [(uid, [⟨role, text⟩])]
  | (k, l) :: rest =>
    if k == uid then (k, l ++ [⟨role, text⟩]) :: rest
    else (k, l) :: add_message rest uid role text

/-- `MemoryStore.get_history` (fallback branch):
`self._memory.get(user_id, [])`. -/
def get_history (m : MemStore) (uid : String) : List MemEntry :=
  match m with
  | [] => []
  | (k, l) :: rest => if k == uid then l else get_history rest uid

/-- `MemoryStore.clear_history` (fallback branch): delete the key if
present, otherwise do nothing. -/
def clear_history (m : MemStore) (uid : String) : MemStore :=
  match m with
  | [] => []
  | (k, l) :: rest => if k == uid then rest else (k, l) :: clear_history rest uid

/-! ## `langgraph_agent.py`: `Agent.handle` -/

/-- The response extraction of `Agent.handle` steps 3–4: the last
`AIMessage` with truthy content (the state scan always lands on the
final message list).  `none` models the `RuntimeError` raise. -/
def lastAiContent : List BMsg → Option String
  | [] => none
  | msg :: rest =>
    match lastAiContent rest with
    | some r => some r
    | none =>
      match msg with
      | .ai c => if pyTruthy c then some c else none
      | _ => none

/-- Steps 3–6 of `Agent.handle`, after the graph run: find the final
answer (the last `AIMessage` with truthy content), raise when there is
none, and commit the answer to the store that already holds the user
prompt.  `mem1` is that store; `run` is the graph-run outcome. -/
def handle_finish (mem1 : MemStore) (uid : String)
    (run : Except PyExn (Option TurnState)) : MemStore × Except PyExn String :=
  match run with
  | .error e => (mem1, .error e)
  | .ok none => (mem1, .error (.exn "GraphRecursionError"))
  | .ok (some st) =>
    match lastAiContent st.msgs with
    | none =>
      (mem1, .error (.runtimeError "Stream completed but no AIMessage with content was found."))
    | some response => (add_message mem1 uid "assistant" response, .ok response)

/-- `Agent.handle`: set `search_global`, read prior history, build the
turn's starting messages (prior *user* messages plus the new prompt),
commit the user prompt to the store, run the graph, extract the final
answer, commit it.  The store component of the result reflects the
`self.memory` mutations even when the turn raises (Python side effects
survive the exception). -/
def handle (fuel : Nat) (tools : ToolRegistry) (backend : Backend) (uuids : UuidGen)
    (mem : MemStore) (prompt search uid : String) : MemStore × Except PyExn String :=
  let history := get_history mem uid
  let messages :=
    (history.filter (fun e => e.role == "user")).map (fun e => BMsg.human e.text) ++
      [BMsg.human prompt]
  let mem1 := add_message mem uid "user" prompt
  let init : TurnState := { msgs := messages, searchGlobal := search, calls := 0, phase := .llm }
  handle_finish mem1 uid (runToDone tools backend uuids fuel init)

/-! ## `tools/search.py`: intent detection and fast paths -/

/-- Replace every non-overlapping occurrence of `pat` by `repl`
(Python `s.replace(pat, repl)`), scanning left to right. -/
def replaceOccGo (pat repl : List Char) : Nat → List Char → List Char
  | 0, s => s
  | _ + 1, [] => []
  | f + 1, c :: cs =>
    if !pat.isEmpty && listIsPre pat (c :: cs) then
      repl ++ replaceOccGo pat repl f (List.drop (pat.length - 1) cs)
    else
      c :: replaceOccGo pat repl f cs

/-- Python `s.replace(pat, repl)`. -/
def pyReplace (s pat repl : String) : String :=
  ⟨replaceOccGo pat.data repl.data s.data.length s.data⟩

/-- `detect_intent`: keyword classification over the lower-cased query. -/
def detect_intent (q : String) : String :=
  let ql := pyLower q
  if ["age", "born", "birthdate", "founding date", "founded", "founded date"].any
      (fun k => pyContains ql k) then "entity_fact"
  else if ["latest", "newest", "today", "this week", "just released", "video"].any
      (fun k => pyContains ql k) then "fresh"
  else if ["what is", "define", "meaning of"].any (fun k => pyContains ql k) then "definition"
  else "general"

/-- `try_wikipedia_api`: the REST summary request is an oracle
`wiki : String → Option String` (`none` models a raised exception or a
non-200 status, `some e` a 200 response whose `js.get("extract") or ""`
is `e`); the function then splits the extract into sentences. -/
def try_wikipedia_api (wiki : String → Option String) (q : String) (sentences : Nat) :
    Option (List String) :=
  (wiki q).map (fun txt => (pySplit txt ". ").take sentences)

/-- Case-insensitive prefix test (for `re.I`). -/
def ciIsPre : List Char → List Char → Bool
  | [], _ => true
  | _ :: _, [] => false
  | p :: ps, c :: cs => p.toLower == c.toLower && ciIsPre ps cs

/-- `\b` to the right of a match: end of input or a non-word character. -/
def wordBoundaryAfter : List Char → Bool
  | [] => true
  | c :: _ => !isWordChar c

/-- At the current position, the leftmost alternative of
`\b(current|age|years old)\b` that matches (case-insensitively), as its
length in characters.  All alternatives begin and end with word
characters, so the boundaries reduce to the neighbouring characters
being non-word. -/
def tryAgeAlts (cs : List Char) : Option Nat :=
  if ciIsPre "current".data cs && wordBoundaryAfter (List.drop 7 cs) then some 7
  else if ciIsPre "age".data cs && wordBoundaryAfter (List.drop 3 cs) then some 3
  else if ciIsPre "years old".data cs && wordBoundaryAfter (List.drop 9 cs) then some 9
  else none

/-- Scanner for `re.sub(r"\b(current|age|years old)\b", "", q, flags=re.I)`:
`prev` is the character before the current position (for the left
boundary); after a match the scan resumes past the matched text. -/
def reSubAgeGo : Nat → Option Char → List Char → List Char
  | 0, _, s => s
  | _ + 1, _, [] => []
  | f + 1, prev, c :: cs =>
    let leftOk := match prev with
      | none => true
      | some pc => !isWordChar pc
    match (if leftOk then tryAgeAlts (c :: cs) else none) with
    | some n =>
      reSubAgeGo f (((c :: cs).take n).getLast?) (List.drop (n - 1) cs)
    | none => c :: reSubAgeGo f (some c) cs

/-- The subject-name derivation in `smart_search`'s age fast path:
strip the age-related filler words, then `.strip()`. -/
def re_sub_age_words (q : String) : String := ⟨reSubAgeGo q.data.length none q.data⟩

/-- Python tuple comparison `(a, b) < (c, d)` on integer pairs. -/
def pyPairLt (a b : Int × Int) : Bool := a.1 < b.1 || (a.1 == b.1 && a.2 < b.2)

/-- The arithmetic core of `compute_age` after `dob_iso` is parsed:
`today.year - y - ((today.month, today.day) < (m, d))`. -/
def compute_age_parts (today : Int × Int × Int) (y m d : Int) : Int :=
  today.1 - y - (if pyPairLt (today.2.1, today.2.2) (m, d) then 1 else 0)

/-- `compute_age`: `y,m,d = map(int, dob_iso.split("-"))`, then the
subtraction with the boolean birthday tie-break.  `datetime.now(...)` is
the `today` oracle; `none` models the `ValueError` of a malformed date
string. -/
def compute_age (today : Int × Int × Int) (dob_iso : String) : Option Int :=
  match (pySplit dob_iso "-").map pyInt with
  | [some y, some m, some d] => some (compute_age_parts today y m d)
  | _ => none

/-! ## `tools/search.py`: Google CSE, extraction, ranking -/

/-- One search-result item as the code reads it
(`it.get("link")`, `it.get("snippet")`). -/
structure CseItem where
  link : Option String
  snippet : Option String
  deriving DecidableEq

/-- Response of the CSE service oracle to the page request with the
given zero-based page index: a result page (with or without a
`nextPage`), an `HttpError`, or any other exception. -/
inductive CseResp where
  | ok (items : List CseItem) (hasNext : Bool)
  | httpError (details : String)
  | exn (msg : String)

/-- Python falsiness of `os.getenv` results (`None` or `""`). -/
def pyFalsyOpt : Option String → Bool
  | none => true
  | some s => s.isEmpty

/-- The pagination loop of `google_cse`: accumulate items page by page,
stop early when the response has no `nextPage`; an `HttpError` or any
other exception discards the accumulated items and produces the
corresponding error string. -/
def googleCseLoop (service : Nat → CseResp) : Nat → Nat → List CseItem →
    List CseItem × Option String
  | 0, _, acc => (acc, none)
  | p + 1, i, acc =>
    match service i with
    | .httpError d => ([], some ("Google API error: " ++ d))
    | .exn m => ([], some ("Search failed: " ++ m))
    | .ok items hasNext =>
      if hasNext then googleCseLoop service p (i + 1) (acc ++ items)
      else (acc ++ items, none)

/-- `google_cse`: the credential guard raises `RuntimeError` *before*
the `try` block; inside it, service errors are converted to an error
string returned alongside an empty item list.  `service` is the oracle
for the pages of this query's request (`query`, `num` and
`dateRestrict` shape the request the oracle answers). -/
def google_cse (apiKey cseId : Option String) (service : Nat → CseResp)
    (query : String) (num pages : Nat) (dateRestrict : Option String) :
    Except PyExn (List CseItem × Option String) :=
  if pyFalsyOpt apiKey || pyFalsyOpt cseId then
    .error (.runtimeError "Missing GOOGLE_API_KEY or GOOGLE_CSE_ID")
  else
    .ok (googleCseLoop service pages 0 [])

/-- `score_passage`: query terms are the lower-cased word runs longer
than two characters; the score is the total number of non-overlapping
occurrences of each term in the lower-cased text, plus `0.3` for each
term-list entry that occurs verbatim among the text's
whitespace-separated chunks.  The float score is modelled exactly in ℚ. -/
def score_passage (q text : String) : ℚ :=
  let q_terms := (reWordRuns (pyLower q)).filter (fun t => 2 < t.length)
  let t := pyLower text
  (((q_terms.map (fun term => pyCount t term)).sum : ℕ) : ℚ) +
    (3 / 10) * (((q_terms.filter (fun term => (pySplitWs t).contains term)).length : ℕ) : ℚ)

/-- The paragraphs that survive `top_passages`' splitting, stripping
and minimum-length filtering, in first-seen order. -/
def surviving_paragraphs (docs : List String) : List String :=
  (docs.map (fun doc =>
    ((pySplit doc "\n").map pyStrip).filter (fun para => decide (60 ≤ para.length)))).flatten

/-- The scored passage pool of `top_passages`: every document is split
on line breaks, each paragraph stripped, paragraphs shorter than 60
characters discarded, the rest paired with their score in first-seen
order. -/
def passage_pairs (q : String) (docs : List String) : List (ℚ × String) :=
  (docs.map (fun doc =>
    (((pySplit doc "\n").map pyStrip).filter (fun para => decide (60 ≤ para.length))).map
      (fun para => (score_passage q para, para)))).flatten

/-- The scored pool after `passages.sort(key=lambda x: x[0],
reverse=True)`: Python's `list.sort` is stable, modelled by insertion
sort with the total preorder "greater or equal score". -/
def score_sorted (q : String) (docs : List String) : List (ℚ × String) :=
  (passage_pairs q docs).insertionSort (fun a b => b.1 ≤ a.1)

/-- `top_passages`: sort the pool by descending score and keep the
first `k` passages. -/
def top_passages (q : String) (docs : List String) (k : Nat) : List String :=
  ((score_sorted q docs).take k).map Prod.snd

/-! ## `tools/search.py`: `smart_search` -/

/-- A resolver result: `{"answer": ..., "citations": [...]}`. -/
structure SearchOut where
  answer : String
  citations : List String
  deriving DecidableEq

/-- The first-seen-order, exact-URL deduplicating link collection of
`smart_search` (`if link and link not in urls`). -/
def dedupLinksGo : List CseItem → List String → List String
  | [], urls => urls
  | it :: rest, urls =>
    match it.link with
    | some l =>
      if pyTruthy l && !urls.contains l then dedupLinksGo rest (urls ++ [l])
      else dedupLinksGo rest urls
    | none => dedupLinksGo rest urls

/-- Steps 3–7 of `smart_search` (the code after the fast paths): Google
recall with freshness restriction, link dedup, extraction, ranking and
synthesis.  A `google_cse`-returned error string becomes the answer; a
raised exception (the credential guard) propagates. -/
def smart_search_websearch (apiKey cseId : Option String) (service : Nat → CseResp)
    (extract_text : String → String) (query : String) : Except PyExn SearchOut :=
  match google_cse apiKey cseId service query 10 2
      (if detect_intent query == "fresh" then some "d7" else none) with
  | .error e => .error e
  | .ok (items, err) =>
    if (match err with | some e => pyTruthy e | none => false) then
      .ok ⟨(err.getD ""), []⟩
    else
      let urls := dedupLinksGo items []
      let texts := ((urls.take 12).map extract_text).filter pyTruthy
      if texts.isEmpty then
        let snippets := items.filterMap (fun it =>
          match it.snippet with
          | some s => if pyTruthy s then some s else none
          | none => none)
        let answer :=
          if !snippets.isEmpty then String.intercalate "\n\n" (snippets.take 5)
          else "No useful text extracted."
        .ok ⟨answer, urls.take 3⟩
      else
        let passages := top_passages query texts 6
        let synthesis := String.intercalate " " (passages.take 3)
        .ok ⟨if pyTruthy synthesis then synthesis
             else "No high-relevance passages found.", urls.take 3⟩

/-- The age fast path of `smart_search` (tried when the Wikipedia
summary produced nothing): derive the subject by stripping age filler
words, look up a date of birth, compute the age; otherwise fall through
to the web search. -/
def smart_search_age_path (apiKey cseId : Option String)
    (wikidataDob : String → Option String) (today : Int × Int × Int)
    (service : Nat → CseResp) (extract_text : String → String) (query : String) :
    Except PyExn SearchOut :=
  if pyContains (pyLower query) "age" then
    let name := pyStrip (re_sub_age_words query)
    let subject := if pyTruthy name then name else query
    match wikidataDob subject with
    | some dob =>
      match compute_age today dob with
      | some age =>
        .ok ⟨subject ++ " is " ++ toString age ++ " years old (born " ++ dob ++ ").",
             ["https://www.wikidata.org/"]⟩
      | none => .error (.exn "ValueError: invalid date string")
    | none => smart_search_websearch apiKey cseId service extract_text query
  else smart_search_websearch apiKey cseId service extract_text query

/-- `smart_search`: intent classification, the `entity_fact` fast paths
(Wikipedia summary, then the Wikidata age computation), then Google
recall with extraction, ranking and synthesis.  External endpoints are
oracles: `wiki` (Wikipedia REST summary), `wikidataDob` (the whole
`try_wikidata_birthdate` lookup, itself pure I/O), `today`
(`datetime.now`), `service` (Google CSE pages), `extract_text` (page
fetch plus extraction; the source function swallows its own exceptions
and returns `""` on failure, so it is total). -/
def smart_search (apiKey cseId : Option String) (wiki : String → Option String)
    (wikidataDob : String → Option String) (today : Int × Int × Int)
    (service : Nat → CseResp) (extract_text : String → String) (query : String) :
    Except PyExn SearchOut :=
  if detect_intent query == "entity_fact" then
    match try_wikipedia_api wiki query 3 with
    | some parts =>
      if !parts.isEmpty then
        .ok ⟨String.intercalate " " parts,
             ["https://en.wikipedia.org/wiki/" ++ pyReplace query " " "_"]⟩
      else smart_search_age_path apiKey cseId wikidataDob today service extract_text query
    | none => smart_search_age_path apiKey cseId wikidataDob today service extract_text query
  else smart_search_websearch apiKey cseId service extract_text query

/-! ## Helper lemmas about the in-process session store -/

theorem get_history_add_self (m : MemStore) (u role text : String) :
    get_history (add_message m u role text) u = get_history m u ++ [⟨role, text⟩] := by
  induction m with
  | nil => simp [add_message, get_history]
  | cons kv rest ih =>
    obtain ⟨k, l⟩ := kv
    by_cases h : k = u
    · subst h
      simp [add_message, get_history]
    · simp only [add_message, get_history, beq_iff_eq, h, if_false, if_neg h]
      exact ih

theorem get_history_add_ne (m : MemStore) (u u' role text : String) (h : u' ≠ u) :
    get_history (add_message m u' role text) u = get_history m u := by
  induction m with
  | nil => simp [add_message, get_history, beq_iff_eq, h]
  | cons kv rest ih =>
    obtain ⟨k, l⟩ := kv
    by_cases hk : k = u'
    · subst hk
      simp [add_message, get_history, beq_iff_eq, h]
    · simp only [add_message, get_history, beq_iff_eq, hk, if_false, if_neg hk]
      by_cases hku : k = u
      · simp [hku]
      · simp [hku, ih]

theorem get_history_clear_ne (m : MemStore) (u u' : String) (h : u' ≠ u) :
    get_history (clear_history m u') u = get_history m u := by
  induction m with
  | nil => simp [clear_history]
  | cons kv rest ih =>
    obtain ⟨k, l⟩ := kv
    by_cases hk : k = u'
    · subst hk
      simp [clear_history, get_history, beq_iff_eq, h, Ne.symm h]
    · by_cases hku : k = u
      · subst hku
        simp [clear_history, get_history, beq_iff_eq, hk]
      · simp [clear_history, get_history, beq_iff_eq, hk, hku, ih]

theorem get_history_of_not_mem_keys (m : MemStore) (u : String)
    (h : u ∉ m.map Prod.fst) : get_history m u = [] := by
  induction m with
  | nil => rfl
  | cons kv rest ih =>
    obtain ⟨k, l⟩ := kv
    simp only [List.map_cons, List.mem_cons, not_or] at h
    simp [get_history, beq_iff_eq, Ne.symm h.1, ih h.2]

theorem clear_history_of_not_mem_keys (m : MemStore) (u : String)
    (h : u ∉ m.map Prod.fst) : clear_history m u = m := by
  induction m with
  | nil => rfl
  | cons kv rest ih =>
    obtain ⟨k, l⟩ := kv
    simp only [List.map_cons, List.mem_cons, not_or] at h
    simp [clear_history, beq_iff_eq, Ne.symm h.1, ih h.2]

theorem get_history_clear_self (m : MemStore) (u : String)
    (hm : (m.map Prod.fst).Nodup) : get_history (clear_history m u) u = [] := by
  induction m with
  | nil => rfl
  | cons kv rest ih =>
    obtain ⟨k, l⟩ := kv
    simp only [List.map_cons, List.nodup_cons] at hm
    by_cases hk : k = u
    · subst hk
      simp only [clear_history, beq_iff_eq, if_pos rfl]
      exact get_history_of_not_mem_keys rest k hm.1
    · simp [clear_history, get_history, beq_iff_eq, hk, ih hm.2]

/-! ## C9 -/

/-- C9: the session history of the in-process store is append-only and
order-preserving — appending entries `a`, `b`, `c` for user `u` extends
`u`'s log by exactly `[a, b, c]` in that order (so from a cleared log a
read returns exactly `[a, b, c]`), clearing `u` empties `u`'s log, and
additions or clears for a different user leave `u`'s log unchanged. -/
theorem session_append_only (m : MemStore) (u : String)
    (hm : (m.map Prod.fst).Nodup) (a b c : MemEntry) :
    get_history
        (add_message (add_message (add_message m u a.role a.text) u b.role b.text)
          u c.role c.text) u
      = get_history m u ++ [a, b, c] ∧
    get_history
        (add_message (add_message (add_message (clear_history m u) u a.role a.text)
          u b.role b.text) u c.role c.text) u
      = [a, b, c] ∧
    get_history (clear_history m u) u = [] ∧
    (∀ u' role text, u' ≠ u →
      get_history (add_message m u' role text) u = get_history m u ∧
      get_history (clear_history m u') u = get_history m u) := by
  refine ⟨?_, ?_, ?_, ?_⟩
  · simp [get_history_add_self]
  · simp [get_history_add_self, get_history_clear_self m u hm]
  · exact get_history_clear_self m u hm
  · intro u' role text h
    exact ⟨get_history_add_ne m u u' role text h, get_history_clear_ne m u u' h⟩

/-- Witness for C9 at a concrete store and concrete entries. -/
theorem session_append_only_witness :
    get_history
        (add_message (add_message (add_message (clear_history [("v", [⟨"user", "x"⟩])] "u")
          "u" "user" "A") "u" "assistant" "B") "u" "tool" "C") "u"
      = [⟨"user", "A"⟩, ⟨"assistant", "B"⟩, ⟨"tool", "C"⟩] :=
  (session_append_only [("v", [⟨"user", "x"⟩])] "u" (by decide)
    ⟨"user", "A"⟩ ⟨"assistant", "B"⟩ ⟨"tool", "C"⟩).2.1

/-! ## C10 -/

/-- C10: in the in-process fallback store, reading the history of a user
that was never written returns the empty list (not an error), and
clearing such a user's history is a no-op: both on the freshly
constructed empty store and on any store whose keys do not include the
user. -/
theorem missing_user_read_clear (m : MemStore) (u : String)
    (h : u ∉ m.map Prod.fst) :
    get_history ([] : MemStore) u = [] ∧ clear_history ([] : MemStore) u = [] ∧
    get_history m u = [] ∧ clear_history m u = m :=
  ⟨rfl, rfl, get_history_of_not_mem_keys m u h, clear_history_of_not_mem_keys m u h⟩

/-- Witness for C10 at a concrete store and user. -/
theorem missing_user_read_clear_witness :
    get_history [("a", [⟨"user", "x"⟩])] "b" = [] ∧
    clear_history [("a", [⟨"user", "x"⟩])] "b" = [("a", [⟨"user", "x"⟩])] :=
  ⟨(missing_user_read_clear [("a", [⟨"user", "x"⟩])] "b" (by decide)).2.2.1,
   (missing_user_read_clear [("a", [⟨"user", "x"⟩])] "b" (by decide)).2.2.2⟩

/-! ## C6 -/

/-- C6: the age computation subtracts one exactly when
`(today.month, today.day)` is lexicographically before
`(birthMonth, birthDay)`; in particular for date of birth `1961-08-04`
it returns 63 on 2025-08-03 and 64 on 2025-08-04 or any later
month/day of 2025. -/
theorem compute_age_correct :
    (∀ y m d ty tm td : Int,
        compute_age_parts (ty, tm, td) y m d =
          if tm < m ∨ (tm = m ∧ td < d) then ty - y - 1 else ty - y) ∧
    compute_age (2025, 8, 3) "1961-08-04" = some 63 ∧
    compute_age (2025, 8, 4) "1961-08-04" = some 64 ∧
    (∀ tm td : Int, (8 < tm ∨ (tm = 8 ∧ 4 ≤ td)) →
      compute_age (2025, tm, td) "1961-08-04" = some 64) := by
  have hiff : ∀ a b c d : Int, pyPairLt (a, b) (c, d) = true ↔ (a < c ∨ (a = c ∧ b < d)) := by
    intro a b c d
    simp [pyPairLt]
  have hcond : ∀ y m d ty tm td : Int,
      compute_age_parts (ty, tm, td) y m d =
        if tm < m ∨ (tm = m ∧ td < d) then ty - y - 1 else ty - y := by
    intro y m d ty tm td
    by_cases h : tm < m ∨ (tm = m ∧ td < d)
    · have hb : pyPairLt (tm, td) (m, d) = true := (hiff tm td m d).mpr h
      unfold compute_age_parts
      rw [hb, if_pos h]
      norm_num
    · have hb : pyPairLt (tm, td) (m, d) = false := by
        rw [Bool.eq_false_iff]
        intro hb'
        exact h ((hiff tm td m d).mp hb')
      unfold compute_age_parts
      rw [hb, if_neg h]
      norm_num
  refine ⟨hcond, by decide, by decide, ?_⟩
  intro tm td h
  have hstep : compute_age (2025, tm, td) "1961-08-04"
      = some (compute_age_parts (2025, tm, td) 1961 8 4) := rfl
  rw [hstep, hcond]
  have : ¬ (tm < 8 ∨ (tm = 8 ∧ td < 4)) := by omega
  rw [if_neg this]
  norm_num

/-- Witness for C6 on a later date of the same year. -/
theorem compute_age_correct_witness :
    compute_age (2025, 9, 1) "1961-08-04" = some 64 :=
  compute_age_correct.2.2.2 9 1 (Or.inl (by norm_num))

/-! ## C2 -/

/-- C2 (code bug): tool advertisement does not follow the caller's flag.
`Agent.handle` stores the caller's flag *string* in `search_global` and
`Agent._call_llm_node` reads it with Python truthiness, so the string
`"false"` — the value the caller and the node's own reset use for
"disabled" — enables the `search_web` advertisement; the node's reset to
the string `'false'` is likewise truthy, so every later generation call
of the turn also advertises.  `construct_sys_prompt` itself does gate
the tool list on its boolean argument (the enumeration line
`search_web(query: str)` appears iff the flag is true, while the weather
tool is enumerated unconditionally), confirming the intended design the
truthiness slip defeats. -/
theorem search_flag_truthiness_bug :
    pyTruthy "false" = true ∧
    pyContains (construct_sys_prompt (pyTruthy "false")) "search_web(query: str)" = true ∧
    pyContains (construct_sys_prompt false) "search_web(query: str)" = false ∧
    pyContains (construct_sys_prompt true) "get_current_weather(location: str)" = true ∧
    pyContains (construct_sys_prompt false) "get_current_weather(location: str)" = true ∧
    (∀ (backend : Backend) (st : TurnState),
      (call_llm_node backend st).searchGlobal = "false" ∧
      pyTruthy (call_llm_node backend st).searchGlobal = true) := by
  refine ⟨rfl, by decide, by decide, by decide, by decide, ?_⟩
  intro backend st
  exact ⟨rfl, rfl⟩

/-! ## C3 -/

/-- C3 (counterexample): a registered capability whose keyword-style
invocation raises a non-`TypeError` exception (here the network failure
a `search_web` call can produce) propagates out of the dispatch step of
`Agent._call_tool_node` instead of being converted into an
error-describing `ToolResult` content string. -/
theorem dispatch_propagates_exception :
    execute_directive
      [("search_web",
        ⟨fun _ => .error (.exn "ConnectionError"), fun _ => .error (.exn "ConnectionError")⟩)]
      (.str "search_web") (.obj [("query", .str "x")])
      = .error (.exn "ConnectionError") := rfl

/-- C3 (amended): the dispatch step catches only `TypeError`, and only
from the keyword-style invocation: on `TypeError` it returns whatever
the positional retry produces (including a raised exception); any other
exception from the capability propagates unchanged to the state
machine; an unknown tool name still yields a not-found content string. -/
theorem dispatch_error_characterization :
    (∀ (tools : ToolRegistry) (name args : JsonVal) (fn : ToolImpl) (e : PyExn),
      toolsGet tools name = some fn →
      fn.invokeKwargs args = .error e → e ≠ .typeError →
      execute_directive tools name args = .error e) ∧
    (∀ (tools : ToolRegistry) (name args : JsonVal) (fn : ToolImpl),
      toolsGet tools name = some fn →
      fn.invokeKwargs args = .error .typeError →
      execute_directive tools name args = fn.invokePositional args) ∧
    (∀ (tools : ToolRegistry) (name args : JsonVal) (fn : ToolImpl) (s : String),
      toolsGet tools name = some fn →
      fn.invokeKwargs args = .ok s →
      execute_directive tools name args = .ok s) ∧
    (∀ (tools : ToolRegistry) (name args : JsonVal),
      toolsGet tools name = none →
      execute_directive tools name args = .ok ("Tool " ++ pyStrOfJson name ++ " not found")) := by
  refine ⟨?_, ?_, ?_, ?_⟩
  · intro tools name args fn e hfn hkw he
    cases e with
    | typeError => exact absurd rfl he
    | runtimeError m => simp [execute_directive, invoke_with_retry, hfn, hkw]
    | exn m => simp [execute_directive, invoke_with_retry, hfn, hkw]
  · intro tools name args fn hfn hkw
    simp [execute_directive, invoke_with_retry, hfn, hkw]
  · intro tools name args fn s hfn hkw
    simp [execute_directive, invoke_with_retry, hfn, hkw]
  · intro tools name args hfn
    simp [execute_directive, hfn]

/-- Witness for C3's amended characterization at a concrete registry:
a `ValueError`-style failure passes through, and a missing tool does not. -/
theorem dispatch_error_characterization_witness :
    execute_directive [("t", ⟨fun _ => .error (.exn "ValueError"), fun _ => .ok "r"⟩)]
        (.str "t") .null = .error (.exn "ValueError") ∧
    execute_directive [] (.str "ghost") .null = .ok "Tool ghost not found" :=
  ⟨dispatch_error_characterization.1 [("t", ⟨fun _ => .error (.exn "ValueError"), fun _ => .ok "r"⟩)]
      (.str "t") .null ⟨fun _ => .error (.exn "ValueError"), fun _ => .ok "r"⟩ (.exn "ValueError")
      rfl rfl (by decide),
   dispatch_error_characterization.2.2.2 [] (.str "ghost") .null rfl⟩

/-! ## C5 -/

/-- C5 (counterexample): with both search credentials absent and a query
to which no fast path applies, the Knowledge Resolver does not return
normally — the credential guard of `google_cse` raises *before* the
`try` block, and `smart_search` lets the `RuntimeError` escape rather
than surfacing the message as the answer text. -/
theorem smart_search_missing_creds_raises :
    smart_search none none (fun _ => none) (fun _ => none) (2025, 1, 1)
      (fun _ => .exn "unreachable") (fun _ => "") "hello world"
      = .error (.runtimeError "Missing GOOGLE_API_KEY or GOOGLE_CSE_ID") := rfl

/-- C5 (amended): whenever both credentials are absent (`None` or empty)
and no `entity_fact` fast path applies — the intent is not
`entity_fact`, or the Wikipedia summary fails and the age path does not
produce a date of birth — `smart_search` raises
`RuntimeError("Missing GOOGLE_API_KEY or GOOGLE_CSE_ID")`: the missing
credential is never silently ignored, but it escapes the resolver as an
exception instead of an answer string with empty citations. -/
theorem smart_search_missing_creds (apiKey cseId : Option String)
    (wiki wikidataDob : String → Option String) (today : Int × Int × Int)
    (service : Nat → CseResp) (extract_text : String → String) (query : String)
    (hkey : pyFalsyOpt apiKey = true ∨ pyFalsyOpt cseId = true)
    (h : detect_intent query ≠ "entity_fact" ∨
      (wiki query = none ∧
        (pyContains (pyLower query) "age" = false ∨
          wikidataDob
            (if pyTruthy (pyStrip (re_sub_age_words query))
             then pyStrip (re_sub_age_words query) else query) = none))) :
    smart_search apiKey cseId wiki wikidataDob today service extract_text query
      = .error (.runtimeError "Missing GOOGLE_API_KEY or GOOGLE_CSE_ID") := by
  have hweb : smart_search_websearch apiKey cseId service extract_text query
      = .error (.runtimeError "Missing GOOGLE_API_KEY or GOOGLE_CSE_ID") := by
    have hcse : google_cse apiKey cseId service query 10 2
        (if detect_intent query == "fresh" then some "d7" else none)
        = .error (.runtimeError "Missing GOOGLE_API_KEY or GOOGLE_CSE_ID") := by
      unfold google_cse
      rcases hkey with hk | hk <;> simp [hk]
    unfold smart_search_websearch
    rw [hcse]
  rcases h with hint | ⟨hwiki, hrest⟩
  · have hbeq : (detect_intent query == "entity_fact") = false := by
      simpa [beq_iff_eq] using hint
    unfold smart_search
    rw [if_neg (by simp [hbeq])]
    exact hweb
  · have hagepath :
        smart_search_age_path apiKey cseId wikidataDob today service extract_text query
          = .error (.runtimeError "Missing GOOGLE_API_KEY or GOOGLE_CSE_ID") := by
      unfold smart_search_age_path
      rcases hrest with hnoage | hdob
      · rw [if_neg (by simp [hnoage])]
        exact hweb
      · by_cases hagec : pyContains (pyLower query) "age" = true
        · rw [if_pos hagec]
          simp only []
          rw [hdob]
          exact hweb
        · rw [Bool.not_eq_true] at hagec
          rw [if_neg (by simp [hagec])]
          exact hweb
    by_cases hint : detect_intent query = "entity_fact"
    · have hbeq : (detect_intent query == "entity_fact") = true := by
        simpa [beq_iff_eq] using hint
      unfold smart_search
      rw [if_pos hbeq]
      unfold try_wikipedia_api
      rw [hwiki]
      exact hagepath
    · have hbeq : (detect_intent query == "entity_fact") = false := by
        simpa [beq_iff_eq] using hint
      unfold smart_search
      rw [if_neg (by simp [hbeq])]
      exact hweb

/-- Witness for C5's amended statement at a concrete no-fast-path query. -/
theorem smart_search_missing_creds_witness :
    smart_search none (some "cse") (fun _ => none) (fun _ => none) (2025, 1, 1)
      (fun _ => .exn "unreachable") (fun _ => "") "tell me a story"
      = .error (.runtimeError "Missing GOOGLE_API_KEY or GOOGLE_CSE_ID") :=
  smart_search_missing_creds none (some "cse") (fun _ => none) (fun _ => none) (2025, 1, 1)
    (fun _ => .exn "unreachable") (fun _ => "") "tell me a story"
    (Or.inl rfl) (Or.inl (by decide))

/-! ## Concrete machine scenarios (used by C1, C4, C8) -/

/-- A directive the backend emits to call the weather tool. -/
def toolCallText : String :=
  "\x7b\"tool_call\": \x7b\"name\": \"get_current_weather\", \"arguments\": \x7b\"query\": \"x\"\x7d \x7d \x7d"

/-- The weather tool as dispatch sees it: keyword-style invocation
raises `TypeError` (the langchain `invoke` signature wants its input
positionally), the positional retry runs the canned capability. -/
def weatherToolImpl : ToolImpl :=
  ⟨fun _ => .error .typeError, fun _ => .ok "It is 75 degrees and sunny."⟩

/-- A registry holding the weather tool. -/
def toolsEx : ToolRegistry := [("get_current_weather", weatherToolImpl)]

/-- A backend that always answers with the weather directive. -/
def alwaysToolBackend : Backend := fun _ _ => toolCallText

/-- A backend whose output merely mentions `tool_call` in prose
(invalid JSON, caught only by the substring fallback). -/
def subFallbackBackend : Backend := fun _ _ => "I will emit a tool_call now"

/-- A fixed uuid oracle. -/
def uuidsEx : UuidGen := fun n => "uuid-" ++ toString n

/-- A turn state as `Agent.handle` builds it for prompt `"hi"` with the
caller flag string `"false"`. -/
def initStateEx : TurnState :=
  { msgs := [.human "hi"], searchGlobal := "false", calls := 0, phase := .llm }

/-- Phase and message count of a finite run (`none` = a raised
exception). -/
def runPhaseLen (tools : ToolRegistry) (backend : Backend) (uuids : UuidGen)
    (n : Nat) (st : TurnState) : Option (GraphPhase × Nat) :=
  match runTurnSteps tools backend uuids n st with
  | .ok st' => some (st'.phase, st'.msgs.length)
  | .error _ => none

/-- Phase and number of tool-role messages of a finite run. -/
def runPhaseToolCount (tools : ToolRegistry) (backend : Backend) (uuids : UuidGen)
    (n : Nat) (st : TurnState) : Option (GraphPhase × Nat) :=
  match runTurnSteps tools backend uuids n st with
  | .ok st' => some (st'.phase, (st'.msgs.filter BMsg.isToolMsg).length)
  | .error _ => none

/-! ## C4 -/

/-- C4 (counterexample): a state entered into EXECUTE_TOOL through the
substring fallback (`"tool_call"` occurs in prose, strict parsing
fails) appends *no* message: after the GENERATE step the turn has 2
messages and routes to the tool node, and after the EXECUTE_TOOL step
it still has 2 messages — not the exactly-one-appended the claim
states. -/
theorem tool_step_appends_nothing_on_fallback :
    runPhaseLen toolsEx subFallbackBackend uuidsEx 1 initStateEx = some (.tools, 2) ∧
    runPhaseLen toolsEx subFallbackBackend uuidsEx 2 initStateEx = some (.llm, 2) := by
  constructor
  · decide
  · decide

/-- C4 (amended): every GENERATE step appends exactly one assistant
message; an EXECUTE_TOOL step appends exactly one tool-role message
when the last message is an assistant message whose text strictly
parses as a directive and dispatch returns a result, and appends
nothing when the last message is not an assistant message or strict
parsing fails (the substring-fallback entry). -/
theorem step_append_effects (tools : ToolRegistry) (backend : Backend) (uuids : UuidGen)
    (st : TurnState) :
    (st.phase = .llm →
      ∃ st', stepTurn tools backend uuids st = .ok st' ∧
        ∃ c, st'.msgs = st.msgs ++ [BMsg.ai c]) ∧
    (st.phase = .tools →
      (∀ last name args res,
        st.msgs.getLast? = some last → last.isAi = true →
        parse_tool_call last.content = some (name, args) →
        execute_directive tools name args = .ok res →
        ∃ tm, tm.isToolMsg = true ∧
          stepTurn tools backend uuids st
            = .ok { st with msgs := st.msgs ++ [tm], phase := .llm }) ∧
      (∀ last,
        st.msgs.getLast? = some last →
        (last.isAi = false ∨ parse_tool_call last.content = none) →
        stepTurn tools backend uuids st = .ok { st with phase := .llm })) := by
  obtain ⟨msgs, sg, calls, ph⟩ := st
  constructor
  · intro hph
    cases hph
    exact ⟨_, rfl, _, rfl⟩
  · intro hph
    cases hph
    constructor
    · intro last name args res hlast hai hparse hexec
      refine ⟨BMsg.tool res (pyStrOfJson name) (uuids msgs.length) (jsonDumps args), rfl, ?_⟩
      unfold stepTurn call_tool_node
      rw [hlast]
      cases last with
      | ai c =>
        simp only [BMsg.content] at hparse
        simp only [BMsg.isAi, BMsg.content, hparse, hexec]
      | human c => simp [BMsg.isAi] at hai
      | tool c n i inp => simp [BMsg.isAi] at hai
    · intro last hlast hfail
      unfold stepTurn call_tool_node
      rw [hlast]
      rcases hfail with hai | hparse
      · cases last with
        | ai c => simp [BMsg.isAi] at hai
        | human c => rfl
        | tool c n i inp => rfl
      · cases last with
        | ai c =>
          simp only [BMsg.content] at hparse
          simp only [BMsg.isAi, BMsg.content, hparse]
        | human c => rfl
        | tool c n i inp => rfl

/-- Witness for C4's amended statement: a GENERATE step from the
initial state appends exactly one assistant message. -/
theorem step_append_effects_witness :
    ∃ st', stepTurn toolsEx subFallbackBackend uuidsEx initStateEx = .ok st' ∧
      ∃ c, st'.msgs = initStateEx.msgs ++ [BMsg.ai c] :=
  (step_append_effects toolsEx subFallbackBackend uuidsEx initStateEx).1 rfl

/-! ## C1 -/

/-- `_should_continue` on a list ending in a freshly appended assistant
message depends only on that message's text. -/
theorem should_continue_append (l : List BMsg) (c : String) :
    should_continue (l ++ [.ai c]) =
      (match jsonLoads c with
       | some (.obj kvs) => jsonHasKey kvs "tool_call"
       | some _ => false
       | none => pyContains c "tool_call") := by
  unfold should_continue
  rw [List.getLast?_concat]

/-- The weather directive survives the output post-processing. -/
theorem clean_toolCallText : clean_llm_output toolCallText = toolCallText := by decide

/-- The weather directive routes the conditional edge to `tools`. -/
theorem should_continue_toolCallText (l : List BMsg) :
    should_continue (l ++ [.ai toolCallText]) = true := by
  rw [should_continue_append]
  decide

/-- Invariant of the run driven by `alwaysToolBackend`: the machine is
at `llm`, or at `tools` with the weather directive as last message. -/
def alwaysToolInv (st : TurnState) : Prop :=
  st.phase = .llm ∨ (st.phase = .tools ∧ st.msgs.getLast? = some (.ai toolCallText))

theorem alwaysTool_step (st : TurnState) (h : alwaysToolInv st) :
    ∃ st', stepTurn toolsEx alwaysToolBackend uuidsEx st = .ok st' ∧ alwaysToolInv st' := by
  obtain ⟨msgs, sg, calls, ph⟩ := st
  rcases h with hph | ⟨hph, hlast⟩
  · cases hph
    refine ⟨_, rfl, ?_⟩
    right
    constructor
    · simp [stepTurn, call_llm_node, alwaysToolBackend, clean_toolCallText,
        should_continue_toolCallText]
    · simp [stepTurn, call_llm_node, alwaysToolBackend, clean_toolCallText,
        List.getLast?_concat]
  · cases hph
    unfold stepTurn call_tool_node
    rw [hlast]
    exact ⟨_, rfl, Or.inl rfl⟩

theorem alwaysTool_run (n : Nat) :
    ∀ st, alwaysToolInv st →
      ∃ st', runTurnSteps toolsEx alwaysToolBackend uuidsEx n st = .ok st' ∧ alwaysToolInv st' := by
  induction n with
  | zero => exact fun st h => ⟨st, rfl, h⟩
  | succ n ih =>
    intro st h
    obtain ⟨st', hstep, hinv⟩ := alwaysTool_step st h
    obtain ⟨st'', hrun, hinv'⟩ := ih st' hinv
    refine ⟨st'', ?_, hinv'⟩
    unfold runTurnSteps
    rw [hstep]
    exact hrun

/-- C1 (counterexample): the state machine enforces no round-trip
bound.  Against a backend that always emits a weather directive, after
12 graph steps the turn has executed 6 GENERATE↔EXECUTE_TOOL round
trips (6 tool-role messages) and is still running — more than the
claimed maximum of 5 — and the bound-exceeded path the claim describes
(terminate with the last generated text) does not exist in the code. -/
theorem turn_exceeds_round_trip_bound :
    runPhaseToolCount toolsEx alwaysToolBackend uuidsEx 12 initStateEx = some (.llm, 6) ∧
    5 < 6 ∧ GraphPhase.llm ≠ GraphPhase.done := by
  refine ⟨by decide, by norm_num, by decide⟩

/-- C1 (amended): the turn loop has no iteration bound of its own.  A
GENERATE step always succeeds and moves to `END` exactly when the
freshly generated (post-processed) text fails the tool-call check
(strict JSON `tool_call` key, else substring fallback), otherwise to
EXECUTE_TOOL; and there are backends — any backend that keeps emitting
parseable directives — for which the machine is still running after
arbitrarily many steps, so termination relies on the generation
backend, not on a per-turn bound (in deployment the framework's
recursion limit aborts such a turn with an error instead of returning
the last text). -/
theorem turn_no_iteration_bound :
    (∀ n, ∃ st, runTurnSteps toolsEx alwaysToolBackend uuidsEx n initStateEx = .ok st ∧
      st.phase ≠ .done) ∧
    (∀ (tools : ToolRegistry) (backend : Backend) (uuids : UuidGen) (st : TurnState),
      st.phase = .llm →
      ∃ st', stepTurn tools backend uuids st = .ok st' ∧
        ∃ c, st'.msgs = st.msgs ++ [BMsg.ai c] ∧
          (st'.phase = if should_continue (st.msgs ++ [BMsg.ai c]) then .tools else .done)) := by
  constructor
  · intro n
    obtain ⟨st', hrun, hinv⟩ := alwaysTool_run n initStateEx (Or.inl rfl)
    refine ⟨st', hrun, ?_⟩
    rcases hinv with h | ⟨h, _⟩ <;> simp [h]
  · intro tools backend uuids st hph
    obtain ⟨msgs, sg, calls, ph⟩ := st
    cases hph
    exact ⟨_, rfl, _, rfl, rfl⟩

/-- Witness for C1's amended statement: the divergence part at 12 steps
and the step characterization at the initial state. -/
theorem turn_no_iteration_bound_witness :
    (∃ st, runTurnSteps toolsEx alwaysToolBackend uuidsEx 12 initStateEx = .ok st ∧
      st.phase ≠ .done) ∧
    (∃ st', stepTurn toolsEx alwaysToolBackend uuidsEx initStateEx = .ok st' ∧
      ∃ c, st'.msgs = initStateEx.msgs ++ [BMsg.ai c] ∧
        (st'.phase = if should_continue (initStateEx.msgs ++ [BMsg.ai c]) then .tools
          else .done)) :=
  ⟨turn_no_iteration_bound.1 12,
   turn_no_iteration_bound.2 toolsEx alwaysToolBackend uuidsEx initStateEx rfl⟩

/-! ## C8 -/

/-- A registry in which the web-lookup capability raises a network
error on either invocation style. -/
def toolsRaising : ToolRegistry :=
  [("search_web",
    ⟨fun _ => .error (.exn "requests.exceptions.ConnectionError"),
     fun _ => .error (.exn "requests.exceptions.ConnectionError")⟩)]

/-- A directive the backend emits to call the web-lookup tool. -/
def searchToolCallText : String :=
  "\x7b\"tool_call\": \x7b\"name\": \"search_web\", \"arguments\": \x7b\"query\": \"x\"\x7d \x7d \x7d"

/-- A backend that always answers with the web-lookup directive. -/
def searchDirectiveBackend : Backend := fun _ _ => searchToolCallText

/-- The turn of C8's counterexample: fresh store, prompt `"hi"`, a
backend that requests `search_web`, and a capability that raises. -/
def handleRunC8 : MemStore × Except PyExn String :=
  handle 25 toolsRaising searchDirectiveBackend uuidsEx [] "hi" "false" "u"

/-- C8 (counterexample): the user prompt is committed to the session
store *before* the state machine runs.  In a turn whose tool capability
raises, the state machine never reaches `DONE` (the turn aborts with
the exception), yet the stored history has already changed from empty
to the one-entry user log — so the stored history is not unchanged
until `DONE`. -/
theorem session_commit_before_done :
    get_history handleRunC8.1 "u" = [⟨"user", "hi"⟩] ∧
    handleRunC8.2 = .error (.exn "requests.exceptions.ConnectionError") ∧
    get_history ([] : MemStore) "u" = [] := by
  refine ⟨rfl, rfl, rfl⟩

/-- The store/answer outcomes of the post-run part of `Agent.handle`. -/
theorem handle_finish_effects (mem1 : MemStore) (uid : String)
    (run : Except PyExn (Option TurnState)) :
    (∀ response, (handle_finish mem1 uid run).2 = .ok response →
      (handle_finish mem1 uid run).1 = add_message mem1 uid "assistant" response) ∧
    (∀ e, (handle_finish mem1 uid run).2 = .error e →
      (handle_finish mem1 uid run).1 = mem1) := by
  cases run with
  | error e' =>
    constructor
    · intro response h
      simp [handle_finish] at h
    · intro e h
      rfl
  | ok o =>
    cases o with
    | none =>
      constructor
      · intro response h
        simp [handle_finish] at h
      · intro e h
        rfl
    | some st =>
      cases hlast : lastAiContent st.msgs with
      | none =>
        constructor
        · intro response h
          simp [handle_finish, hlast] at h
        · intro e h
          simp [handle_finish, hlast]
      | some r =>
        constructor
        · intro response h
          simp only [handle_finish, hlast] at h ⊢
          obtain rfl : r = response := by simpa using h
          rfl
        · intro e h
          simp [handle_finish, hlast] at h

/-- C8 (amended): the user prompt is committed before the state machine
starts; during the run itself nothing is committed; and after the run
exactly one further commit happens on success — the final answer (the
turn's intermediate assistant and tool messages are never committed).
A turn that ends in an exception (or never reaches `DONE`) leaves the
store holding exactly the prior history plus the user prompt. -/
theorem handle_commit_points (fuel : Nat) (tools : ToolRegistry) (backend : Backend)
    (uuids : UuidGen) (mem : MemStore) (prompt search uid : String) :
    (∀ response, (handle fuel tools backend uuids mem prompt search uid).2 = .ok response →
      (handle fuel tools backend uuids mem prompt search uid).1
        = add_message (add_message mem uid "user" prompt) uid "assistant" response) ∧
    (∀ e, (handle fuel tools backend uuids mem prompt search uid).2 = .error e →
      (handle fuel tools backend uuids mem prompt search uid).1
        = add_message mem uid "user" prompt) :=
  handle_finish_effects (add_message mem uid "user" prompt) uid _

/-- Witness for C8's amended statement on a concrete successful turn:
one directive round trip, then a plain answer; the store ends with the
user prompt and the final answer only. -/
theorem handle_commit_points_witness :
    (handle 25 toolsEx (fun n _ => if n == 0 then toolCallText else "All done.") uuidsEx
        [] "hi" "false" "u").1
      = add_message (add_message [] "u" "user" "hi") "u" "assistant" "All done." :=
  (handle_commit_points 25 toolsEx (fun n _ => if n == 0 then toolCallText else "All done.")
      uuidsEx [] "hi" "false" "u").1 "All done." rfl

/-! ## C7 -/

/-- Modelled from the claim's wording, for comparison with the source's
`score_passage`: same query terms and same total occurrence count, but
the whole-word presence bonus is `0.3` per *distinct* matching term
(the source pays the bonus once per query-term list entry, so a term
repeated in the query is paid repeatedly). -/
def claim_score_passage (q text : String) : ℚ :=
  let q_terms := (reWordRuns (pyLower q)).filter (fun t => 2 < t.length)
  let t := pyLower text
  (((q_terms.map (fun term => pyCount t term)).sum : ℕ) : ℚ) +
    (3 / 10) * (((q_terms.dedup.filter (fun term => (pySplitWs t).contains term)).length : ℕ) : ℚ)

/-- The claim's ranking pipeline with the distinct-term bonus. -/
def claim_passage_pairs (q : String) (docs : List String) : List (ℚ × String) :=
  (docs.map (fun doc =>
    (((pySplit doc "\n").map pyStrip).filter (fun para => decide (60 ≤ para.length))).map
      (fun para => (claim_score_passage q para, para)))).flatten

/-- The claim's `top_passages` with the distinct-term bonus. -/
def claim_top_passages (q : String) (docs : List String) (k : Nat) : List String :=
  (((claim_passage_pairs q docs).insertionSort (fun a b => b.1 ≤ a.1)).take k).map Prod.snd

/-- Sample paragraph with one whole-word `the` and nothing else scored. -/
def exParaA : String := "lions hunt on grass at dawn near the big waterhole in summer mornings"

/-- Sample paragraph with two `zebra` occurrences, one as a whole word. -/
def exParaB : String := "zebra zebras gallop across sunlit african savanna plains during dry season"

/-- A document whose line-delimited paragraphs are `exParaB`, `exParaA`. -/
def exDocC7 : String := exParaB ++ "\n" ++ exParaA

/-- C7 (counterexample): for the query `"the the zebra"` (the term
`the` appears twice in the query's token list) the source scores
paragraph A as `2 + 0.3·2 = 2.6` — the whole-word bonus is paid per
query-term entry — while the claim's "0.3 per distinct term" scoring
gives `2 + 0.3 = 2.3`, tying A with B; the stable tie-break then puts
first-seen B first, so the claimed pipeline returns the two passages in
the opposite order from the code. -/
theorem ranking_bonus_not_per_distinct_term :
    score_passage "the the zebra" exParaA = 13 / 5 ∧
    claim_score_passage "the the zebra" exParaA = 23 / 10 ∧
    score_passage "the the zebra" exParaB = 23 / 10 ∧
    claim_score_passage "the the zebra" exParaB = 23 / 10 ∧
    top_passages "the the zebra" [exDocC7] 6 = [exParaA, exParaB] ∧
    claim_top_passages "the the zebra" [exDocC7] 6 = [exParaB, exParaA] ∧
    top_passages "the the zebra" [exDocC7] 6 ≠ claim_top_passages "the the zebra" [exDocC7] 6 := by
  refine ⟨?_, ?_, ?_, ?_, ?_, ?_, ?_⟩ <;> with_unfolding_all decide

/-! Helper lemmas for the ranking properties. -/

theorem passage_pairs_eq_map (q : String) (docs : List String) :
    passage_pairs q docs
      = (surviving_paragraphs docs).map (fun para => (score_passage q para, para)) := by
  unfold passage_pairs surviving_paragraphs
  rw [List.map_flatten, List.map_map]
  rfl

theorem mem_passage_pairs_score {q : String} {docs : List String} {p : ℚ × String}
    (hp : p ∈ passage_pairs q docs) : p.1 = score_passage q p.2 := by
  rw [passage_pairs_eq_map] at hp
  obtain ⟨para, _, hmap⟩ := List.mem_map.mp hp
  cases hmap
  rfl

theorem filter_score_orderedInsert_eq (c : ℚ) (a : ℚ × String) (l : List (ℚ × String))
    (h : a.1 = c) :
    (List.orderedInsert (fun x y => y.1 ≤ x.1) a l).filter (fun p => decide (p.1 = c))
      = a :: l.filter (fun p => decide (p.1 = c)) := by
  induction l with
  | nil => simp [List.orderedInsert, List.filter_cons, h]
  | cons b bs ih =>
    by_cases hr : b.1 ≤ a.1
    · simp only [List.orderedInsert, if_pos hr]
      simp [List.filter_cons, h]
    · have hbc : ¬ b.1 = c := fun hb => hr (le_of_eq (hb.trans h.symm))
      simp only [List.orderedInsert, if_neg hr]
      simp [List.filter_cons, hbc, ih]

theorem filter_score_orderedInsert_ne (c : ℚ) (a : ℚ × String) (l : List (ℚ × String))
    (h : ¬ a.1 = c) :
    (List.orderedInsert (fun x y => y.1 ≤ x.1) a l).filter (fun p => decide (p.1 = c))
      = l.filter (fun p => decide (p.1 = c)) := by
  induction l with
  | nil => simp [List.orderedInsert, List.filter_cons, h]
  | cons b bs ih =>
    by_cases hr : b.1 ≤ a.1
    · simp only [List.orderedInsert, if_pos hr]
      simp [List.filter_cons, h]
    · simp only [List.orderedInsert, if_neg hr]
      simp [List.filter_cons, ih]

theorem filter_score_insertionSort (c : ℚ) (l : List (ℚ × String)) :
    (l.insertionSort (fun x y => y.1 ≤ x.1)).filter (fun p => decide (p.1 = c))
      = l.filter (fun p => decide (p.1 = c)) := by
  induction l with
  | nil => rfl
  | cons a as ih =>
    simp only [List.insertionSort]
    by_cases h : a.1 = c
    · rw [filter_score_orderedInsert_eq c a _ h, ih]
      simp [List.filter_cons, h]
    · rw [filter_score_orderedInsert_ne c a _ h, ih]
      simp [List.filter_cons, h]

theorem score_sorted_sorted (q : String) (docs : List String) :
    List.Sorted (fun x y : ℚ × String => y.1 ≤ x.1) (score_sorted q docs) := by
  haveI : IsTotal (ℚ × String) (fun x y => y.1 ≤ x.1) := ⟨fun a b => le_total b.1 a.1⟩
  haveI : IsTrans (ℚ × String) (fun x y => y.1 ≤ x.1) :=
    ⟨fun _ _ _ hab hbc => le_trans hbc hab⟩
  exact List.sorted_insertionSort _ _

theorem mem_score_sorted_pairs {q : String} {docs : List String} {p : ℚ × String}
    (hp : p ∈ score_sorted q docs) : p ∈ passage_pairs q docs :=
  (List.perm_insertionSort _ _).mem_iff.mp hp

/-- C7 (amended): ranking is the deterministic pipeline the claim
describes — split on line breaks, strip, drop paragraphs under the
minimum length, score, sort by descending score with first-seen-stable
ties, keep the top `k` — except that the `0.3` whole-word bonus is paid
per query-term *list entry* (a term repeated in the query is paid once
per repetition), not per distinct term.  Concretely: the result has at
most `k` entries drawn from the surviving paragraphs, its scores are
non-increasing, equal-score pool entries keep their first-seen order
through the sort, and every kept passage scores at least as high as
every dropped pool entry. -/
theorem top_passages_ranking (q : String) (docs : List String) (k : Nat) :
    (top_passages q docs k).length ≤ k ∧
    (∀ p, p ∈ top_passages q docs k → p ∈ surviving_paragraphs docs) ∧
    List.Pairwise (fun p1 p2 => score_passage q p2 ≤ score_passage q p1)
      (top_passages q docs k) ∧
    (∀ c : ℚ, (score_sorted q docs).filter (fun p => decide (p.1 = c))
      = (passage_pairs q docs).filter (fun p => decide (p.1 = c))) ∧
    (∀ a b, a ∈ top_passages q docs k → b ∈ (score_sorted q docs).drop k →
      score_passage q b.2 ≤ score_passage q a) := by
  have hsorted := score_sorted_sorted q docs
  refine ⟨?_, ?_, ?_, ?_, ?_⟩
  · simp only [top_passages, List.length_map]
    exact List.length_take_le _ _
  · intro p hp
    obtain ⟨pr, hpr, rfl⟩ := List.mem_map.mp hp
    have h1 : pr ∈ score_sorted q docs := (List.take_sublist k _).subset hpr
    have h2 := mem_score_sorted_pairs h1
    rw [passage_pairs_eq_map] at h2
    obtain ⟨para, hpara, heq⟩ := List.mem_map.mp h2
    cases heq
    exact hpara
  · have htake : List.Pairwise (fun x y : ℚ × String => y.1 ≤ x.1)
        ((score_sorted q docs).take k) :=
      List.Pairwise.sublist (List.take_sublist k _) hsorted
    rw [top_passages, List.pairwise_map]
    refine htake.imp_of_mem ?_
    intro a b ha hb hr
    have hsa := mem_passage_pairs_score (mem_score_sorted_pairs ((List.take_sublist k _).subset ha))
    have hsb := mem_passage_pairs_score (mem_score_sorted_pairs ((List.take_sublist k _).subset hb))
    rw [← hsa, ← hsb]
    exact hr
  · intro c
    exact filter_score_insertionSort c (passage_pairs q docs)
  · intro a b ha hb
    obtain ⟨pa, hpa, rfl⟩ := List.mem_map.mp ha
    have hsplit := hsorted
    rw [← List.take_append_drop k (score_sorted q docs)] at hsplit
    obtain ⟨-, -, hcross⟩ := List.pairwise_append.mp hsplit
    have hr := hcross pa hpa b hb
    have hsa := mem_passage_pairs_score (mem_score_sorted_pairs ((List.take_sublist k _).subset hpa))
    have hsb := mem_passage_pairs_score
      (mem_score_sorted_pairs ((List.drop_sublist k _).subset hb))
    rw [← hsa, ← hsb]
    exact hr

/-- Witness for C7's amended statement: the top passage of the sample
document is one of its surviving paragraphs. -/
theorem top_passages_ranking_witness :
    exParaA ∈ surviving_paragraphs [exDocC7] :=
  (top_passages_ranking "the the zebra" [exDocC7] 6).2.1 exParaA
    (by with_unfolding_all decide)
